import Mathlib

/-!
Shallow embedding of `src/dashboard.py`, class `DCFValuation`, a discounted
cash flow valuation engine.  Python floats are modelled as exact rationals;
Python exceptions are modelled with an explicit error type.  Methods that
mutate `self.projections` return the resulting engine state explicitly; the
error component records the exception raised, if any, and the state component
records the instance fields at that moment (in the source every `raise`
happens before any assignment to `self`, which is reflected branch by
branch below).
-/

/-- Exceptions the Python code can raise: `ValueError` with its message
(raised explicitly by the validation checks), and `ZeroDivisionError`
(raised by `/` when the denominator is zero). -/
inductive PyErr where
  | valueError (msg : String)
  | zeroDivisionError
deriving Repr, DecidableEq

/-- Python division on numbers: raises `ZeroDivisionError` on a zero
denominator, otherwise exact division. -/
def pydiv (a b : ℚ) : Except PyErr ℚ :=
  if b = 0 then .error .zeroDivisionError else .ok (a / b)

/-- One element of `self.projections`: the dict with keys
`Year`, `FCF`, `Growth Rate` appended by `project_fcf`. -/
structure ProjectionEntry where
  year : ℕ
  fcf : ℚ
  growthRate : ℚ
deriving Repr, DecidableEq

/-- The instance fields of class `DCFValuation`, as set by `__init__`
(which also initialises `projections = []`). -/
structure DCFValuation where
  company_name : String
  fcf_base : ℚ
  fcf_growth_years : ℕ
  projections : List ProjectionEntry
deriving Repr, DecidableEq

/-- `DCFValuation.__init__`: stores the name, the base FCF and the number of
projection years (5 by default in the source) and starts with no
projections. -/
def DCFValuation.init (company_name : String) (fcf_base : ℚ)
    (fcf_growth_years : ℕ) : DCFValuation :=
  ⟨company_name, fcf_base, fcf_growth_years, []⟩

/-- The `for year in range(1, n+1)` loop body of `project_fcf`: starting
from the running `fcf` value, consume the remaining growth rates in order,
producing one entry per year; `year` is the 1-based index of the next
entry.  Each step updates `fcf = fcf * (1 + growth_rates[year-1])` and
appends the entry. -/
def projectLoop (fcf : ℚ) (year : ℕ) : List ℚ → List ProjectionEntry
  | [] => []
  | g :: rest =>
    let fcf2 := fcf * (1 + g)
    ⟨year, fcf2, g⟩ :: projectLoop fcf2 (year + 1) rest

/-- `DCFValuation.project_fcf`: raises
`ValueError("Provide N growth rates")` when the number of supplied rates
is not `fcf_growth_years` (before touching `self.projections`), otherwise
rebuilds `self.projections` from `fcf_base` and returns the new list. -/
def DCFValuation.project_fcf (m : DCFValuation) (growth_rates : List ℚ) :
    DCFValuation × Except PyErr (List ProjectionEntry) :=
  if growth_rates.length ≠ m.fcf_growth_years then
    (m, .error (.valueError
      ("Provide " ++ toString m.fcf_growth_years ++ " growth rates")))
  else
    let projections := projectLoop m.fcf_base 1 growth_rates
    ({ m with projections := projections }, .ok projections)

/-- `DCFValuation.calculate_terminal_value`: raises
`ValueError("Run project_fcf() first")` when `self.projections` is empty,
otherwise reads `self.projections[-1]['FCF']` and returns
`final_fcf * (1 + terminal_growth_rate) / (wacc - terminal_growth_rate)`.
No field of `self` is assigned, so no state is returned. -/
def DCFValuation.calculate_terminal_value (m : DCFValuation)
    (terminal_growth_rate wacc : ℚ) : Except PyErr ℚ :=
  match m.projections.getLast? with
  | none => .error (.valueError "Run project_fcf() first")
  | some p =>
    let terminal_fcf := p.fcf * (1 + terminal_growth_rate)
    pydiv terminal_fcf (wacc - terminal_growth_rate)

/-- The `for projection in self.projections` loop of `calculate_pv`:
for each entry compute `fcf / (1 + discount_rate) ** year` and collect the
results in order; a zero denominator raises at that iteration. -/
def pvLoop (discount_rate : ℚ) : List ProjectionEntry → Except PyErr (List ℚ)
  | [] => .ok []
  | p :: rest => do
    let pv ← pydiv p.fcf ((1 + discount_rate) ^ p.year)
    let pvs ← pvLoop discount_rate rest
    .ok (pv :: pvs)

/-- `DCFValuation.calculate_pv`: present value of each stored projection.
Note the source has no emptiness check here: with no projections it simply
returns the empty list.  No field of `self` is assigned. -/
def DCFValuation.calculate_pv (m : DCFValuation) (discount_rate : ℚ) :
    Except PyErr (List ℚ) :=
  pvLoop discount_rate m.projections

/-- The `ValuationResult` record returned by `calculate_enterprise_value`
(dict keys `PV of Projected FCFs`, `Terminal Value`, `PV of Terminal
Value`, `Enterprise Value`). -/
structure ValuationResult where
  pv_of_projected_fcfs : ℚ
  terminal_value : ℚ
  pv_of_terminal_value : ℚ
  enterprise_value : ℚ
deriving Repr, DecidableEq

/-- `DCFValuation.calculate_enterprise_value`: runs `project_fcf` (the only
mutation), then sums the present values of the projections, computes the
terminal value and discounts it back `fcf_growth_years` periods, and adds
the two.  The state component is the one left by `project_fcf`; the
remaining steps only read it. -/
def DCFValuation.calculate_enterprise_value (m : DCFValuation)
    (growth_rates : List ℚ) (terminal_growth_rate wacc : ℚ) :
    DCFValuation × Except PyErr ValuationResult :=
  let step := m.project_fcf growth_rates
  let m1 := step.1
  (m1, do
    let _ ← step.2
    let pv_fcfs ← m1.calculate_pv wacc
    let pv_fcf_sum := pv_fcfs.sum
    let terminal_value ← m1.calculate_terminal_value terminal_growth_rate wacc
    let pv_terminal_value ← pydiv terminal_value
      ((1 + wacc) ^ m1.fcf_growth_years)
    .ok ⟨pv_fcf_sum, terminal_value, pv_terminal_value,
      pv_fcf_sum + pv_terminal_value⟩)

/-- The record returned by `calculate_equity_value`
(dict keys `Equity Value`, `Price Per Share`). -/
structure EquityResult where
  equity_value : ℚ
  price_per_share : ℚ
deriving Repr, DecidableEq

/-- `DCFValuation.calculate_equity_value`: `equity_value = enterprise_value
- net_debt` and `price_per_share = equity_value / shares_outstanding`.
The source reads no instance field and assigns none. -/
def DCFValuation.calculate_equity_value (_m : DCFValuation)
    (enterprise_value net_debt shares_outstanding : ℚ) :
    Except PyErr EquityResult := do
  let equity_value := enterprise_value - net_debt
  let price_per_share ← pydiv equity_value shares_outstanding
  .ok ⟨equity_value, price_per_share⟩

/-- The projected cash flow of year `y` as the spec describes it:
`fcf_0 = baseFCF` and `fcf_y = fcf_(y-1) * (1 + growthRates[y-1])`. -/
def fcfAt (base : ℚ) (rates : List ℚ) : ℕ → ℚ
  | 0 => base
  | y + 1 => fcfAt base rates y * (1 + rates.getD y 0)

/-! Helper lemmas about the embedding. -/

theorem except_bind_ok {α β : Type} (a : α) (f : α → Except PyErr β) :
    (Except.ok a >>= f) = f a := rfl

theorem except_bind_error {α β : Type} (e : PyErr) (f : α → Except PyErr β) :
    ((Except.error e : Except PyErr α) >>= f) = Except.error e := rfl

theorem fcfAt_cons (f g : ℚ) (rest : List ℚ) (k : ℕ) :
    fcfAt f (g :: rest) (k + 1) = fcfAt (f * (1 + g)) rest k := by
  induction k with
  | zero => simp [fcfAt]
  | succ k ih => rw [fcfAt, ih, List.getD_cons_succ, fcfAt]

theorem projectLoop_eq (f : ℚ) (y : ℕ) (rates : List ℚ) :
    projectLoop f y rates =
      (List.range rates.length).map
        (fun i => ⟨y + i, fcfAt f rates (i + 1), rates.getD i 0⟩) := by
  induction rates generalizing f y with
  | nil => simp [projectLoop]
  | cons g rest ih =>
    rw [projectLoop, ih, List.length_cons, List.range_succ_eq_map,
      List.map_cons, List.map_map]
    congr 1
    apply List.map_congr_left
    intro i _
    show (⟨y + 1 + i, fcfAt (f * (1 + g)) rest (i + 1), rest.getD i 0⟩ :
        ProjectionEntry) =
      ⟨y + (i + 1), fcfAt f (g :: rest) (i + 1 + 1), (g :: rest).getD (i + 1) 0⟩
    rw [fcfAt_cons f g rest (i + 1), List.getD_cons_succ]
    have hy : y + 1 + i = y + (i + 1) := by omega
    rw [hy]

theorem projectLoop_length (f : ℚ) (y : ℕ) (rates : List ℚ) :
    (projectLoop f y rates).length = rates.length := by
  rw [projectLoop_eq]; simp

theorem projectLoop_getD (f : ℚ) (rates : List ℚ) (i : ℕ)
    (hi : i < rates.length) :
    (projectLoop f 1 rates).getD i ⟨0, 0, 0⟩ =
      ⟨1 + i, fcfAt f rates (i + 1), rates.getD i 0⟩ := by
  rw [projectLoop_eq, List.getD_eq_getElem?_getD, List.getElem?_map,
    List.getElem?_range hi]
  rfl

theorem projectLoop_getLast? (f : ℚ) (rates : List ℚ) (h : rates ≠ []) :
    (projectLoop f 1 rates).getLast? =
      some ⟨rates.length, fcfAt f rates rates.length,
        rates.getD (rates.length - 1) 0⟩ := by
  obtain ⟨n, hn⟩ : ∃ n, rates.length = n + 1 :=
    ⟨rates.length - 1, by cases rates with
      | nil => exact absurd rfl h
      | cons a l => simp⟩
  rw [projectLoop_eq, hn, List.range_succ, List.map_append, List.map_cons,
    List.map_nil, List.getLast?_concat]
  simp [hn]
  omega

theorem pvLoop_ok (d : ℚ) (hd : (1 : ℚ) + d ≠ 0) (l : List ProjectionEntry) :
    pvLoop d l = .ok (l.map (fun p => p.fcf / (1 + d) ^ p.year)) := by
  induction l with
  | nil => rfl
  | cons p rest ih =>
    have h1 : pydiv p.fcf ((1 + d) ^ p.year) = .ok (p.fcf / (1 + d) ^ p.year) := by
      rw [pydiv, if_neg (pow_ne_zero p.year hd)]
    simp only [pvLoop, h1, except_bind_ok, ih, List.map_cons]

theorem project_fcf_ok (m : DCFValuation) (rates : List ℚ)
    (h : rates.length = m.fcf_growth_years) :
    m.project_fcf rates =
      ({ m with projections := projectLoop m.fcf_base 1 rates },
        .ok (projectLoop m.fcf_base 1 rates)) := by
  simp [DCFValuation.project_fcf, h]

/-! Claim theorems. -/

/-- Claim C2: for growth-rate sequences of the right length, `project_fcf`
succeeds, stores and returns exactly `fcf_growth_years` entries with years
1..N in order, the first FCF is `fcf_base * (1 + rates[0])`, and each later
FCF is the previous entry's FCF times `(1 + rates[i])`. -/
theorem project_fcf_correct (m : DCFValuation) (rates : List ℚ)
    (h : rates.length = m.fcf_growth_years) :
    ∃ entries : List ProjectionEntry,
      m.project_fcf rates = ({ m with projections := entries }, .ok entries) ∧
      entries.length = m.fcf_growth_years ∧
      (∀ i, i < entries.length → (entries.getD i ⟨0, 0, 0⟩).year = i + 1) ∧
      (0 < entries.length →
        (entries.getD 0 ⟨0, 0, 0⟩).fcf = m.fcf_base * (1 + rates.getD 0 0)) ∧
      (∀ i, i + 1 < entries.length →
        (entries.getD (i + 1) ⟨0, 0, 0⟩).fcf =
          (entries.getD i ⟨0, 0, 0⟩).fcf * (1 + rates.getD (i + 1) 0)) := by
  refine ⟨projectLoop m.fcf_base 1 rates, project_fcf_ok m rates h, ?_, ?_, ?_, ?_⟩
  · rw [projectLoop_length, h]
  · intro i hi
    rw [projectLoop_length] at hi
    rw [projectLoop_getD _ _ _ hi]
    show 1 + i = i + 1
    omega
  · intro h0
    rw [projectLoop_length] at h0
    rw [projectLoop_getD _ _ _ h0]
    show fcfAt m.fcf_base rates 1 = m.fcf_base * (1 + rates.getD 0 0)
    rfl
  · intro i hi
    rw [projectLoop_length] at hi
    rw [projectLoop_getD _ _ _ hi, projectLoop_getD _ _ _ (by omega)]
    show fcfAt m.fcf_base rates (i + 1 + 1) =
      fcfAt m.fcf_base rates (i + 1) * (1 + rates.getD (i + 1) 0)
    rfl

/-- Witness for C2 at a concrete engine and growth rates. -/
theorem project_fcf_correct_witness :
    ([(1 : ℚ)/10, 1/5].length = (DCFValuation.init "Demo" 100 2).fcf_growth_years) ∧
    (∃ entries : List ProjectionEntry,
      (DCFValuation.init "Demo" 100 2).project_fcf [(1 : ℚ)/10, 1/5] =
        ({ DCFValuation.init "Demo" 100 2 with projections := entries },
          .ok entries) ∧
      entries.length = (DCFValuation.init "Demo" 100 2).fcf_growth_years ∧
      (∀ i, i < entries.length → (entries.getD i ⟨0, 0, 0⟩).year = i + 1) ∧
      (0 < entries.length →
        (entries.getD 0 ⟨0, 0, 0⟩).fcf =
          (DCFValuation.init "Demo" 100 2).fcf_base *
            (1 + [(1 : ℚ)/10, 1/5].getD 0 0)) ∧
      (∀ i, i + 1 < entries.length →
        (entries.getD (i + 1) ⟨0, 0, 0⟩).fcf =
          (entries.getD i ⟨0, 0, 0⟩).fcf *
            (1 + [(1 : ℚ)/10, 1/5].getD (i + 1) 0))) :=
  ⟨rfl, project_fcf_correct (DCFValuation.init "Demo" 100 2) [(1 : ℚ)/10, 1/5] rfl⟩

/-- Claim C7: `project_fcf` with a growth-rate sequence of the wrong length
raises the input-validation `ValueError` (the spec's `InvalidInputError`). -/
theorem project_fcf_wrong_length (m : DCFValuation) (rates : List ℚ)
    (h : rates.length ≠ m.fcf_growth_years) :
    m.project_fcf rates =
      (m, .error (.valueError
        ("Provide " ++ toString m.fcf_growth_years ++ " growth rates"))) := by
  simp [DCFValuation.project_fcf, h]

/-- Witness for C7 with zero rates against a five-year engine. -/
theorem project_fcf_wrong_length_witness :
    (([] : List ℚ).length ≠ (DCFValuation.init "Demo7" 100 5).fcf_growth_years) ∧
    (DCFValuation.init "Demo7" 100 5).project_fcf [] =
      (DCFValuation.init "Demo7" 100 5, .error (.valueError
        ("Provide " ++ toString (DCFValuation.init "Demo7" 100 5).fcf_growth_years
          ++ " growth rates"))) :=
  ⟨by decide, project_fcf_wrong_length _ _ (by decide)⟩

/-- Claim C10: when `project_fcf` fails on a wrong-length sequence, the
stored projections (indeed the whole engine state) are unchanged, whatever
they were before, because the length check precedes every assignment. -/
theorem project_fcf_wrong_length_preserves_projections (m : DCFValuation)
    (rates : List ℚ) (h : rates.length ≠ m.fcf_growth_years) :
    (m.project_fcf rates).1 = m ∧
    (m.project_fcf rates).1.projections = m.projections ∧
    ∃ e : PyErr, (m.project_fcf rates).2 = .error e := by
  refine ⟨?_, ?_, ⟨.valueError
    ("Provide " ++ toString m.fcf_growth_years ++ " growth rates"), ?_⟩⟩ <;>
    simp [DCFValuation.project_fcf, h]

/-- Witness for C10 on an engine that already holds a projection. -/
theorem project_fcf_wrong_length_preserves_projections_witness :
    ([(0 : ℚ)].length ≠ (DCFValuation.mk "D10" 100 5 [⟨1, 50, 0⟩]).fcf_growth_years) ∧
    (((DCFValuation.mk "D10" 100 5 [⟨1, 50, 0⟩]).project_fcf [(0 : ℚ)]).1 =
        DCFValuation.mk "D10" 100 5 [⟨1, 50, 0⟩] ∧
      ((DCFValuation.mk "D10" 100 5 [⟨1, 50, 0⟩]).project_fcf [(0 : ℚ)]).1.projections =
        (DCFValuation.mk "D10" 100 5 [⟨1, 50, 0⟩]).projections ∧
      ∃ e : PyErr,
        ((DCFValuation.mk "D10" 100 5 [⟨1, 50, 0⟩]).project_fcf [(0 : ℚ)]).2 =
          .error e) :=
  ⟨by decide, project_fcf_wrong_length_preserves_projections _ _ (by decide)⟩

/-- Claim C3, counterexample: on a freshly constructed engine (no
projection has been run), `calculate_pv` does not fail at all: it returns
the empty list, a normal value, contradicting the claim that it fails
with `StateError`. -/
theorem calculate_pv_before_projection_returns_empty :
    (DCFValuation.init "Microsoft" 45000 5).calculate_pv (7/100) =
      .ok ([] : List ℚ) := rfl

/-- Claim C3 as amended: with empty projections `calculate_terminal_value`
raises `ValueError("Run project_fcf() first")` (the spec's `StateError`),
while `calculate_pv` does not fail and returns the empty list. -/
theorem empty_projections_behavior (m : DCFValuation)
    (g d discount_rate : ℚ) (h : m.projections = []) :
    m.calculate_terminal_value g d =
      .error (.valueError "Run project_fcf() first") ∧
    m.calculate_pv discount_rate = .ok ([] : List ℚ) := by
  constructor
  · simp [DCFValuation.calculate_terminal_value, h]
  · simp [DCFValuation.calculate_pv, h, pvLoop]

/-- Witness for the amended C3 on a concrete fresh engine. -/
theorem empty_projections_behavior_witness :
    ((DCFValuation.init "Demo3" 200 3).projections = []) ∧
    ((DCFValuation.init "Demo3" 200 3).calculate_terminal_value (1/40) (6/100) =
        .error (.valueError "Run project_fcf() first") ∧
      (DCFValuation.init "Demo3" 200 3).calculate_pv (9/100) =
        .ok ([] : List ℚ)) :=
  ⟨rfl, empty_projections_behavior (DCFValuation.init "Demo3" 200 3)
    (1/40) (6/100) (9/100) rfl⟩

/-- Claim C1: the source performs no `wacc > terminal_growth_rate` check.
On an engine with a stored projection of FCF 100, a terminal growth rate
of 5 percent and a WACC of 2 percent, `calculate_terminal_value` returns
the nonsensical number -3500 instead of failing with the spec's
`InvalidInputError`; at exact equality of the rates it raises
`ZeroDivisionError`, again not the documented error. -/
theorem calculate_terminal_value_missing_rate_check :
    (DCFValuation.mk "X" 100 1 [⟨1, 100, 0⟩]).calculate_terminal_value
      (5/100) (2/100) = .ok (-3500) ∧
    (DCFValuation.mk "X" 100 1 [⟨1, 100, 0⟩]).calculate_terminal_value
      (5/100) (5/100) = .error .zeroDivisionError := by
  constructor
  · with_unfolding_all rfl
  · with_unfolding_all rfl

/-- Claim C5: the source performs no `shares_outstanding > 0` check.
With -2 shares outstanding `calculate_equity_value` returns an
`EquityResult` (price per share -50) instead of failing with the spec's
`InvalidInputError`; with 0 shares it raises `ZeroDivisionError`, again
not the documented error. -/
theorem calculate_equity_value_missing_shares_check :
    (DCFValuation.mk "Y" 100 1 []).calculate_equity_value 100 0 (-2) =
      .ok ⟨100, -50⟩ ∧
    (DCFValuation.mk "Y" 100 1 []).calculate_equity_value 100 0 0 =
      .error .zeroDivisionError := by
  constructor
  · with_unfolding_all rfl
  · with_unfolding_all rfl

/-- Claim C6: with a non-empty projection list and `wacc` above the
terminal growth rate, `calculate_terminal_value` returns exactly
`lastFCF * (1 + terminal_growth_rate) / (wacc - terminal_growth_rate)`,
where `lastFCF` is the final stored entry's FCF; and the result depends
only on that final entry (any engine with the same final entry gets the
same result).  The embedding's type records that no state is written. -/
theorem calculate_terminal_value_correct (m : DCFValuation) (g d : ℚ)
    (p : ProjectionEntry) (hlast : m.projections.getLast? = some p)
    (hgd : g < d) :
    m.calculate_terminal_value g d = .ok (p.fcf * (1 + g) / (d - g)) ∧
    ∀ m2 : DCFValuation, m2.projections.getLast? = some p →
      m2.calculate_terminal_value g d = m.calculate_terminal_value g d := by
  have hne : d - g ≠ 0 := sub_ne_zero.mpr (ne_of_gt hgd)
  constructor
  · simp only [DCFValuation.calculate_terminal_value, hlast]
    rw [pydiv, if_neg hne]
  · intro m2 h2
    simp only [DCFValuation.calculate_terminal_value, hlast, h2]

/-- Witness for C6 on a one-entry engine. -/
theorem calculate_terminal_value_correct_witness :
    ((DCFValuation.mk "V" 100 1 [⟨1, 110, 1/10⟩]).projections.getLast? =
      some ⟨1, 110, 1/10⟩) ∧ ((1 : ℚ)/40 < 7/100) ∧
    ((DCFValuation.mk "V" 100 1 [⟨1, 110, 1/10⟩]).calculate_terminal_value
        (1/40) (7/100) =
      .ok ((⟨1, 110, 1/10⟩ : ProjectionEntry).fcf * (1 + 1/40) /
        (7/100 - 1/40)) ∧
    ∀ m2 : DCFValuation, m2.projections.getLast? = some ⟨1, 110, 1/10⟩ →
      m2.calculate_terminal_value (1/40) (7/100) =
        (DCFValuation.mk "V" 100 1 [⟨1, 110, 1/10⟩]).calculate_terminal_value
          (1/40) (7/100)) :=
  ⟨rfl, by norm_num,
    calculate_terminal_value_correct (DCFValuation.mk "V" 100 1 [⟨1, 110, 1/10⟩])
      (1/40) (7/100) ⟨1, 110, 1/10⟩ rfl (by norm_num)⟩

/-- Claim C8: with positive shares outstanding `calculate_equity_value`
returns `equity_value = enterprise_value - net_debt` and
`price_per_share = equity_value / shares_outstanding`; the result is
independent of the engine (the source reads no instance field), and the
embedding's type records that no field is written. -/
theorem calculate_equity_value_correct (m : DCFValuation)
    (enterprise_value net_debt shares_outstanding : ℚ)
    (hs : 0 < shares_outstanding) :
    m.calculate_equity_value enterprise_value net_debt shares_outstanding =
      .ok ⟨enterprise_value - net_debt,
        (enterprise_value - net_debt) / shares_outstanding⟩ ∧
    ∀ m2 : DCFValuation,
      m2.calculate_equity_value enterprise_value net_debt shares_outstanding =
        m.calculate_equity_value enterprise_value net_debt shares_outstanding := by
  constructor
  · have h1 : pydiv (enterprise_value - net_debt) shares_outstanding =
        .ok ((enterprise_value - net_debt) / shares_outstanding) := by
      rw [pydiv, if_neg (ne_of_gt hs)]
    simp only [DCFValuation.calculate_equity_value, h1, except_bind_ok]
  · intro m2
    rfl

/-- Witness for C8 at enterprise value 100, net debt 20, 4 shares. -/
theorem calculate_equity_value_correct_witness :
    ((0 : ℚ) < 4) ∧
    ((DCFValuation.init "E" 1 1).calculate_equity_value 100 20 4 =
      .ok ⟨100 - 20, (100 - 20) / 4⟩ ∧
    ∀ m2 : DCFValuation, m2.calculate_equity_value 100 20 4 =
      (DCFValuation.init "E" 1 1).calculate_equity_value 100 20 4) :=
  ⟨by norm_num,
    calculate_equity_value_correct (DCFValuation.init "E" 1 1) 100 20 4
      (by norm_num)⟩

/-- Claim C4: for valid inputs (right-length rates, positive projection
horizon, `wacc` above the terminal growth rate, and a non-degenerate
discount factor `1 + wacc`), `calculate_enterprise_value` returns the sum
over years 1..N of `fcf_y / (1 + wacc) ^ y`, the terminal value
`fcf_N * (1 + g) / (wacc - g)`, its present value discounted back N
periods, and the enterprise value as the sum of the two. -/
theorem calculate_enterprise_value_correct (m : DCFValuation)
    (rates : List ℚ) (g d : ℚ)
    (hlen : rates.length = m.fcf_growth_years)
    (hpos : 0 < m.fcf_growth_years)
    (hgd : g < d) (hd : (1 : ℚ) + d ≠ 0) :
    m.calculate_enterprise_value rates g d =
      ({ m with projections := projectLoop m.fcf_base 1 rates },
        .ok
          ⟨((List.range m.fcf_growth_years).map
              (fun i => fcfAt m.fcf_base rates (i + 1) / (1 + d) ^ (i + 1))).sum,
            fcfAt m.fcf_base rates m.fcf_growth_years * (1 + g) / (d - g),
            fcfAt m.fcf_base rates m.fcf_growth_years * (1 + g) / (d - g) /
              (1 + d) ^ m.fcf_growth_years,
            ((List.range m.fcf_growth_years).map
              (fun i => fcfAt m.fcf_base rates (i + 1) / (1 + d) ^ (i + 1))).sum +
              fcfAt m.fcf_base rates m.fcf_growth_years * (1 + g) / (d - g) /
                (1 + d) ^ m.fcf_growth_years⟩) := by
  have hrne : rates ≠ [] := by
    intro hnil
    rw [hnil] at hlen
    simp at hlen
    omega
  have hproj := project_fcf_ok m rates hlen
  have hpv : ({ m with projections := projectLoop m.fcf_base 1 rates } :
      DCFValuation).calculate_pv d =
      .ok ((projectLoop m.fcf_base 1 rates).map
        (fun p => p.fcf / (1 + d) ^ p.year)) := pvLoop_ok d hd _
  have hmap : (projectLoop m.fcf_base 1 rates).map
      (fun p => p.fcf / (1 + d) ^ p.year) =
      (List.range m.fcf_growth_years).map
        (fun i => fcfAt m.fcf_base rates (i + 1) / (1 + d) ^ (i + 1)) := by
    rw [projectLoop_eq, List.map_map, ← hlen]
    apply List.map_congr_left
    intro i _
    simp only [Function.comp_apply]
    show fcfAt m.fcf_base rates (i + 1) / (1 + d) ^ (1 + i) =
      fcfAt m.fcf_base rates (i + 1) / (1 + d) ^ (i + 1)
    rw [Nat.add_comm 1 i]
  have htv : ({ m with projections := projectLoop m.fcf_base 1 rates } :
      DCFValuation).calculate_terminal_value g d =
      .ok (fcfAt m.fcf_base rates m.fcf_growth_years * (1 + g) / (d - g)) := by
    simp only [DCFValuation.calculate_terminal_value,
      projectLoop_getLast? m.fcf_base rates hrne]
    rw [pydiv, if_neg (sub_ne_zero.mpr (ne_of_gt hgd)), hlen]
  have hptv : pydiv
      (fcfAt m.fcf_base rates m.fcf_growth_years * (1 + g) / (d - g))
      ((1 + d) ^ m.fcf_growth_years) =
      .ok (fcfAt m.fcf_base rates m.fcf_growth_years * (1 + g) / (d - g) /
        (1 + d) ^ m.fcf_growth_years) := by
    rw [pydiv, if_neg (pow_ne_zero _ hd)]
  simp only [DCFValuation.calculate_enterprise_value, hproj]
  rw [hpv, except_bind_ok, except_bind_ok, hmap, htv, except_bind_ok, hptv,
    except_bind_ok]

/-- Witness for C4 on a one-year engine with zero growth and 100 percent
discount rate. -/
theorem calculate_enterprise_value_correct_witness :
    ([(0 : ℚ)].length = (DCFValuation.init "W4" 100 1).fcf_growth_years) ∧
    (0 < (DCFValuation.init "W4" 100 1).fcf_growth_years) ∧
    ((0 : ℚ) < 1) ∧ ((1 : ℚ) + 1 ≠ 0) ∧
    (DCFValuation.init "W4" 100 1).calculate_enterprise_value [(0 : ℚ)] 0 1 =
      ({ DCFValuation.init "W4" 100 1 with projections :=
          (projectLoop (DCFValuation.init "W4" 100 1).fcf_base 1 [(0 : ℚ)]) },
        .ok
          ⟨((List.range (DCFValuation.init "W4" 100 1).fcf_growth_years).map
              (fun i => fcfAt (DCFValuation.init "W4" 100 1).fcf_base [(0 : ℚ)]
                (i + 1) / ((1 : ℚ) + 1) ^ (i + 1))).sum,
            fcfAt (DCFValuation.init "W4" 100 1).fcf_base [(0 : ℚ)]
              (DCFValuation.init "W4" 100 1).fcf_growth_years * (1 + 0) /
              (1 - 0),
            fcfAt (DCFValuation.init "W4" 100 1).fcf_base [(0 : ℚ)]
              (DCFValuation.init "W4" 100 1).fcf_growth_years * (1 + 0) /
              (1 - 0) /
              ((1 : ℚ) + 1) ^ (DCFValuation.init "W4" 100 1).fcf_growth_years,
            ((List.range (DCFValuation.init "W4" 100 1).fcf_growth_years).map
              (fun i => fcfAt (DCFValuation.init "W4" 100 1).fcf_base [(0 : ℚ)]
                (i + 1) / ((1 : ℚ) + 1) ^ (i + 1))).sum +
              fcfAt (DCFValuation.init "W4" 100 1).fcf_base [(0 : ℚ)]
                (DCFValuation.init "W4" 100 1).fcf_growth_years * (1 + 0) /
                (1 - 0) /
                ((1 : ℚ) + 1) ^ (DCFValuation.init "W4" 100 1).fcf_growth_years⟩) :=
  ⟨rfl, by decide, by norm_num, by norm_num,
    calculate_enterprise_value_correct (DCFValuation.init "W4" 100 1) [(0 : ℚ)]
      0 1 rfl (by decide) (by norm_num) (by norm_num)⟩

theorem cev_projections_invariant (m : DCFValuation) (P : List ProjectionEntry)
    (rates : List ℚ) (g d : ℚ) (hlen : rates.length = m.fcf_growth_years) :
    ({ m with projections := P } : DCFValuation).calculate_enterprise_value
      rates g d = m.calculate_enterprise_value rates g d := by
  have h1 := project_fcf_ok m rates hlen
  have h2 := project_fcf_ok { m with projections := P } rates hlen
  simp only [DCFValuation.calculate_enterprise_value, h1, h2]

/-- Claim C9: when `calculate_enterprise_value` succeeds, running it again
with the same arguments on the engine state it left behind yields the very
same state and the very same `ValuationResult`; the result does not depend
on the projections stored before the call, because the internal
`project_fcf` overwrites them before any read. -/
theorem calculate_enterprise_value_idempotent (m m1 : DCFValuation)
    (rates : List ℚ) (g d : ℚ) (r : ValuationResult)
    (h : m.calculate_enterprise_value rates g d = (m1, .ok r)) :
    m1.calculate_enterprise_value rates g d = (m1, .ok r) := by
  by_cases hlen : rates.length = m.fcf_growth_years
  · have h1 := project_fcf_ok m rates hlen
    have hfst := congrArg Prod.fst h
    simp only [DCFValuation.calculate_enterprise_value, h1] at hfst
    have hm1 : m1 = { m with projections := projectLoop m.fcf_base 1 rates } :=
      hfst.symm
    rw [hm1,
      cev_projections_invariant m (projectLoop m.fcf_base 1 rates) rates g d hlen,
      ← hm1]
    exact h
  · exfalso
    have hsnd := congrArg Prod.snd h
    simp only [DCFValuation.calculate_enterprise_value,
      DCFValuation.project_fcf, if_pos hlen, except_bind_error] at hsnd
    exact Except.noConfusion hsnd

/-- Witness for C9: a concrete successful first run, replayed. -/
theorem calculate_enterprise_value_idempotent_witness :
    (DCFValuation.init "W9" 100 1).calculate_enterprise_value [(0 : ℚ)] 0 1 =
      (DCFValuation.mk "W9" 100 1 [⟨1, 100, 0⟩], .ok ⟨50, 100, 50, 100⟩) ∧
    (DCFValuation.mk "W9" 100 1 [⟨1, 100, 0⟩]).calculate_enterprise_value
      [(0 : ℚ)] 0 1 =
      (DCFValuation.mk "W9" 100 1 [⟨1, 100, 0⟩], .ok ⟨50, 100, 50, 100⟩) :=
  ⟨by with_unfolding_all rfl,
    calculate_enterprise_value_idempotent (DCFValuation.init "W9" 100 1)
      (DCFValuation.mk "W9" 100 1 [⟨1, 100, 0⟩]) [(0 : ℚ)] 0 1
      ⟨50, 100, 50, 100⟩ (by with_unfolding_all rfl)⟩
